import Mathlib

/-!
Shallow embedding of the `mparse` parser-combinator library (the final
`parser.h` variant) and proofs about it.

Modelling conventions, applied uniformly:

* The input `std::string_view` is modelled as a `List Char`; `substr(0, n)`
  is `List.take n`, `substr(n)` is `List.drop n`, `size()` is `List.length`.
* `ParseResult<T>` is a structure with an `Option T` value, the
  remaining/failure-position view, and the error string, exactly as in the
  source; `make_parse_result` and `empty_parse_result` mirror the two
  construction helpers.
* A `Parser T` is the bare parse function `List Char → ParseResult T`
  (the C++ class is an immutable wrapper around exactly this function).
* `input.front()` on a *non-empty* view reads the first character.  Several
  primitives in the source call `front()` without an emptiness check; on an
  empty view this is an out-of-bounds read in C++.  In the test binaries the
  backing buffers are NUL-terminated `std::string`s / string literals, so in
  practice the read yields the NUL terminator; the total model `frontD`
  adopts that reading (`frontD [] = '\x00'`).  The out-of-bounds accesses
  themselves are tracked by the separate `*_chk` definitions further below,
  which return `none` exactly when an access past the end happens.
* `fmt::format` calls are modelled by plain string concatenation producing
  the same text.
* The `while` loops of the repetition combinators are modelled with
  explicit fuel; a fuel of `input.length + 1` is baked into the
  parser-level wrappers, which is sufficient exactly when every successful
  inner parse consumes input.  Fuel exhaustion corresponds to
  non-termination of the C++ loop and is reported through a distinguished
  diagnostic that no genuine code path produces.
-/

namespace MParse

/-- Models `ParseResult<T>`: `result` is the optional parsed value, `input`
the remaining input (on success) or the failure position (on failure), and
`error` the diagnostic string. -/
structure ParseResult (T : Type) where
  result : Option T
  input : List Char
  error : String
deriving Repr, DecidableEq

/-- Models `make_parse_result(value, remaining)`: success, empty error. -/
def make_parse_result {T : Type} (value : T) (remaining : List Char) : ParseResult T :=
  ⟨some value, remaining, ""⟩

/-- Models `empty_parse_result(input, error)`: failure at `input`. -/
def empty_parse_result (T : Type) (input : List Char) (error : String) : ParseResult T :=
  ⟨none, input, error⟩

/-- A parser is its parse function, as in the C++ `Parser<T>` class whose
only state is the captured `std::function`. -/
def Parser (T : Type) : Type := List Char → ParseResult T

/-- Models `Parser<T>::or_else`: try `self`; if it fails, run `parser`
on the original input; otherwise return `self`'s result unchanged. -/
def or_else {T : Type} (self parser : Parser T) : Parser T := fun input =>
  let result := self input
  match result.result with
  | none => parser input
  | some _ => result

/-- Models the dependent `Parser<T>::and_then(F fn)` overload (monadic
bind): on failure of `self` the failure is re-issued at the original input
with `self`'s error; on success `fn` is applied to the value and the
resulting parser runs on `self`'s remainder. -/
def and_then {T U : Type} (self : Parser T) (fn : T → Parser U) : Parser U := fun input =>
  let result := self input
  match result.result with
  | none => empty_parse_result U input result.error
  | some v => fn v result.input

/-- Models the non-dependent `Parser<T>::and_then(const Parser<U>&)`
overload: run `self`, discard its value, run `next` on the remainder and
return `next`'s result verbatim. -/
def and_thenP {T U : Type} (self : Parser T) (next : Parser U) : Parser U := fun input =>
  let result := self input
  match result.result with
  | none => empty_parse_result U input result.error
  | some _ => next result.input

/-- Models `Parser<T>::and_not(const Parser<U>&)`: run `self`; on its
success attempt `next` at the remainder; if `next` also succeeds the whole
combinator fails at the *original* input naming the unexpectedly parsed
value, otherwise `self`'s original success is returned unchanged.
`toStr` stands for the `fmt` formatter of `U` used by the source. -/
def and_not {T U : Type} (self : Parser T) (next : Parser U) (toStr : U → String) :
    Parser T := fun input =>
  let result := self input
  match result.result with
  | none => empty_parse_result T input result.error
  | some _ =>
    let next_result := next result.input
    match next_result.result with
    | some w => empty_parse_result T input ("Expected failure but parsed " ++ toStr w)
    | none => result

/-- Models `detail::parser_impl<T>::skip` (and therefore `Parser::skip`):
run `self`, then `next` on the remainder; keep `self`'s value and `next`'s
remainder.  If `self` fails the failure is at the original input; if `next`
fails the failure is at `self`'s remainder.  (For `T = string_view` the
source first converts the value to `discontinuous_string_view`, which has
the same content and only changes overload selection, so the value-level
behaviour is exactly this.) -/
def skip {T U : Type} (self : Parser T) (next : Parser U) : Parser T := fun input =>
  let result := self input
  match result.result with
  | none => empty_parse_result T input result.error
  | some v =>
    let next_result := next result.input
    match next_result.result with
    | none => empty_parse_result T result.input next_result.error
    | some _ => make_parse_result v next_result.input

/-- Models `Parser<T>::transform`: map the value on success, re-issue the
failure at the original input otherwise. -/
def transform {T U : Type} (self : Parser T) (fn : T → U) : Parser U := fun input =>
  let result := self input
  match result.result with
  | none => empty_parse_result U input result.error
  | some v => make_parse_result (fn v) result.input

/-- Models `parse_never<T>()`: always fails with the `never` diagnostic. -/
def parse_never (T : Type) : Parser T := fun input =>
  empty_parse_result T input "Error: never"

/-- Models `pure(value)`: succeeds with `value`, consumes nothing.
(Named `pureP` to avoid shadowing the monadic `pure` of the Lean core.) -/
def pureP {T : Type} (value : T) : Parser T := fun input =>
  make_parse_result value input

/-- Models `input.front()` under the NUL-terminated-buffer reading
described in the header comment: the front character, or the NUL
terminator when the view is empty (an out-of-bounds read in C++, tracked
separately by the `*_chk` definitions). -/
def frontD : List Char → Char
  | [] => Char.ofNat 0
  | c :: _ => c

/-- Models `detail::str_contains`. -/
def str_contains (str : List Char) (ch : Char) : Bool :=
  str.contains ch

/-- Models `std::isdigit` restricted to ASCII, as the spec assumes. -/
def isdigitB (ch : Char) : Bool :=
  decide ('0' ≤ ch) && decide (ch ≤ '9')

/-- Models `detail::parse_char_class(matcher)`.  The source calls
`input.front()` with no emptiness check; `frontD` supplies the NUL
terminator there, on which every character-class matcher used by the
library is false. -/
def parse_char_class (matcher : Char → Bool) : Parser (List Char) := fun input =>
  if matcher (frontD input) then
    make_parse_result (input.take 1) (input.drop 1)
  else
    empty_parse_result (List Char) input
      ("Error: unexpected char " ++ toString (frontD input))

/-- Models `parse_literal(ch)`. -/
def parse_literal (ch : Char) : Parser (List Char) := fun input =>
  if !input.isEmpty && (frontD input == ch) then
    make_parse_result (input.take 1) (input.drop 1)
  else
    empty_parse_result (List Char) input
      ("Expected " ++ toString ch ++ " but saw " ++ toString (frontD input))

/-- Models `parse_range(first, last)`. -/
def parse_range (first last : Char) : Parser (List Char) := fun input =>
  if !input.isEmpty && (decide (first ≤ frontD input) && decide (frontD input ≤ last)) then
    make_parse_result (input.take 1) (input.drop 1)
  else
    empty_parse_result (List Char) input
      ("Error: expected [" ++ toString first ++ "-" ++ toString last ++
        "] but saw " ++ toString (frontD input))

/-- Models `parse_str(str)` (uses `starts_with`, which is
out-of-bounds-safe). -/
def parse_str (str : List Char) : Parser (List Char) := fun input =>
  if str.isPrefixOf input then
    make_parse_result (input.take str.length) (input.drop str.length)
  else
    empty_parse_result (List Char) input
      ("Error: expected " ++ String.mk str ++ " but saw " ++ String.mk input)

/-- Models `parse_any_of(str)` (no emptiness check in the source). -/
def parse_any_of (str : List Char) : Parser (List Char) := fun input =>
  if !str_contains str (frontD input) then
    empty_parse_result (List Char) input
      ("Error: expected any of " ++ String.mk str ++ " but saw " ++ toString (frontD input))
  else
    make_parse_result (input.take 1) (input.drop 1)

/-- Models `parse_none_of(str)` (no emptiness check in the source). -/
def parse_none_of (str : List Char) : Parser (List Char) := fun input =>
  if str_contains str (frontD input) then
    empty_parse_result (List Char) input
      ("Error: expected none of " ++ String.mk str ++ " but saw " ++ toString (frontD input))
  else
    make_parse_result (input.take 1) (input.drop 1)

/-- Models `parse_any()` (explicit emptiness check in the source). -/
def parse_any : Parser (List Char) := fun input =>
  if input.isEmpty then
    empty_parse_result (List Char) input "Error: empty input"
  else
    make_parse_result (input.take 1) (input.drop 1)

/-- Models `ch - '0'` on an ASCII digit character. -/
def digitVal (ch : Char) : Int :=
  (ch.toNat : Int) - 48

/-- Models `parse_digit(first, last)`: a character class accepting an ASCII
digit whose value lies in `[first, last]`, transformed to that value. -/
def parse_digit (first last : Int) : Parser Int :=
  transform
    (parse_char_class (fun ch =>
      isdigitB ch && (decide (first ≤ digitVal ch) && decide (digitVal ch ≤ last))))
    (fun str => digitVal (frontD str))

/-- Models `parse_end()`. -/
def parse_end : Parser Unit := fun input =>
  if !input.isEmpty then
    empty_parse_result Unit input "Error: input not empty"
  else
    make_parse_result () input

/-- Models `parse_not(parser)` (which in the source only instantiates at
`T = string_view`): succeed consuming one character exactly when `parser`
fails here.  `input.substr(1)` on an empty view throws in C++; the total
model returns `[]` there, and the throwing access is tracked by
`parse_not_chk`. -/
def parse_not (parser : Parser (List Char)) : Parser (List Char) := fun input =>
  let result := parser input
  match result.result with
  | some _ => empty_parse_result (List Char) input "Error: not"
  | none => make_parse_result (input.take 1) (input.drop 1)

/-- The `while` loop of the generic (vector-collecting) `parse_some`
overload, with explicit fuel.  Per iteration the source parses once,
breaks on failure, fails when a further match arrives with the maximum
already reached, and otherwise accumulates the value and advances.  `none`
means the fuel ran out, i.e. the C++ loop has not finished within that
many iterations. -/
def someLoopV {T : Type} (parser : Parser T) (max : Option Nat) :
    Nat → List T → List Char → Option (ParseResult (List T))
  | 0, _, _ => none
  | fuel + 1, results, input =>
    if input.isEmpty then
      some (make_parse_result results input)
    else
      let result := parser input
      match result.result with
      | none => some (make_parse_result results input)
      | some v =>
        match max with
        | some m =>
          if results.length == m then
            some (empty_parse_result (List T) input
              ("Error: parsed more than " ++ toString m ++ " reults"))
          else
            someLoopV parser max fuel (results ++ [v]) result.input
        | none => someLoopV parser max fuel (results ++ [v]) result.input

/-- Models the generic `parse_some(parser, max)` (vector overload).  The
fuel `input.length + 1` completes every run in which each successful inner
parse consumes input; the exhaustion branch corresponds to C++
non-termination (see `parse_someV_terminates`). -/
def parse_someV {T : Type} (parser : Parser T) (max : Option Nat) : Parser (List T) :=
  fun input =>
    match someLoopV parser max (input.length + 1) [] input with
    | some r => r
    | none => empty_parse_result (List T) input "Error: model fuel exhausted"

/-- The C++ loop of `parse_some(parser, max)` has produced an outcome
within some finite number of iterations. -/
def parse_someV_terminates {T : Type} (parser : Parser T) (max : Option Nat)
    (input : List Char) : Prop :=
  ∃ fuel, (someLoopV parser max fuel [] input).isSome

/-- Models the generic `parse_n(parser, min, max)` (vector overload),
which the source builds from `parse_some` with the *same* `max`
(defaulting to `nullopt`) and a post-hoc minimum check through `and_then`,
`parse_never` and `pure`. -/
def parse_nV {T : Type} (parser : Parser T) (min : Nat) (max : Option Nat) :
    Parser (List T) :=
  and_then (parse_someV parser max) (fun results =>
    if results.length < min then parse_never (List T) else pureP results)

/-- The `while` loop of the `StringParser` (span-coalescing) `parse_some`
overload: `inp` advances through the input while `size` accumulates the
*lengths of the returned value slices*; both exits return the prefix
`input.substr(0, size)` of the original input together with `inp`.  On a
further match with the maximum already reached it fails at the original
`input`. -/
def someLoopSV (parser : Parser (List Char)) (max : Option Nat) (input : List Char) :
    Nat → Nat → Nat → List Char → Option (ParseResult (List Char))
  | 0, _, _, _ => none
  | fuel + 1, size, count, inp =>
    if inp.isEmpty then
      some (make_parse_result (input.take size) inp)
    else
      let result := parser inp
      match result.result with
      | none => some (make_parse_result (input.take size) inp)
      | some v =>
        match max with
        | some m =>
          if count == m then
            some (empty_parse_result (List Char) input
              ("Error: parsed more than " ++ toString m ++ " results"))
          else
            someLoopSV parser max input fuel (size + v.length) (count + 1) result.input
        | none => someLoopSV parser max input fuel (size + v.length) (count + 1) result.input

/-- Models the `StringParser` `parse_some(parser, max)` overload (the
contiguous-span optimization). -/
def parse_someSV (parser : Parser (List Char)) (max : Option Nat) : Parser (List Char) :=
  fun input =>
    match someLoopSV parser max input (input.length + 1) 0 0 input with
    | some r => r
    | none => empty_parse_result (List Char) input "Error: model fuel exhausted"

/-- The closing step of the `StringParser` `parse_n` overload: below `min`
matches it fails at the current position citing the inner error, otherwise
it returns `input.substr(0, pos)` and `input.substr(pos)`. -/
def finishN (input : List Char) (min count pos : Nat) (inp : List Char) (err : String) :
    ParseResult (List Char) :=
  if count < min then
    empty_parse_result (List Char) inp
      ("Error: expected " ++ toString min ++ " occurences but only saw " ++
        toString count ++ "\n\tInner: " ++ err)
  else
    make_parse_result (input.take pos) (input.drop pos)

/-- The `while` loop of the `StringParser` `parse_n` overload.  On an inner
failure its error is captured for the diagnostic; on a further match with
the maximum already reached it fails at the *extra match's remainder*. -/
def nLoopSV (parser : Parser (List Char)) (min : Nat) (max : Option Nat)
    (input : List Char) :
    Nat → Nat → Nat → List Char → Option (ParseResult (List Char))
  | 0, _, _, _ => none
  | fuel + 1, count, pos, inp =>
    if inp.isEmpty then
      some (finishN input min count pos inp "")
    else
      let result := parser inp
      match result.result with
      | none => some (finishN input min count pos inp result.error)
      | some v =>
        match max with
        | some m =>
          if count == m then
            some (empty_parse_result (List Char) result.input
              ("Error: parsed more than " ++ toString m ++ " results"))
          else
            nLoopSV parser min max input fuel (count + 1) (pos + v.length) result.input
        | none => nLoopSV parser min max input fuel (count + 1) (pos + v.length) result.input

/-- Models the `StringParser` `parse_n(parser, min, max)` overload. -/
def parse_nSV (parser : Parser (List Char)) (min : Nat) (max : Option Nat) :
    Parser (List Char) :=
  fun input =>
    match nLoopSV parser min max input (input.length + 1) 0 0 input with
    | some r => r
    | none => empty_parse_result (List Char) input "Error: model fuel exhausted"

/-- Models `parse_delimited_by(parser, delimiter, terminator)`: a
max-less `parse_some` over `parser.skip(delimiter)` (the generic
vector-collecting overload — for `string_view` items the `skip` result
type is `discontinuous_string_view`, so overload resolution picks the
vector `parse_some` there as well), then one final bare `parser`, then the
`terminator` is required but its consumption is *not* kept: the success
remainder is the final item's remainder.  The `max` parameter of the
source is never read in its body and is omitted here. -/
def parse_delimited_by {T D S : Type} (parser : Parser T) (delimiter : Parser D)
    (terminator : Parser S) : Parser (List T) := fun input =>
  let tokens_result := parse_someV (skip parser delimiter) none input
  match tokens_result.result with
  | none => empty_parse_result (List T) input tokens_result.error
  | some results =>
    let input2 := tokens_result.input
    let last_token_result := parser input2
    match last_token_result.result with
    | none => empty_parse_result (List T) input2 last_token_result.error
    | some v =>
      let term_result := terminator last_token_result.input
      match term_result.result with
      | none => empty_parse_result (List T) term_result.input term_result.error
      | some _ => make_parse_result (results ++ [v]) last_token_result.input

/-- Models `parse_recursive(makeParser)` for a builder that uses the
parser handed to it *by value* (i.e. without wrapping it in `parse_ref`):
the cell is created holding `parse_never`, the builder is invoked once on
it, and every combinator that receives the handed-in parser captures a
copy of that `parse_never` which the subsequent tie-back assignment
`*parser_ptr = ...` does not update.  The returned read-through wrapper
then always invokes exactly `makeParser(parse_never)`. -/
def parse_recursive_byval {T : Type} (makeParser : Parser T → Parser T) : Parser T :=
  makeParser (parse_never T)

/-- Models `parse_recursive(makeParser)` for a builder all of whose uses
of the handed-in parser go through `parse_ref` (a read-through wrapper
that re-reads the shared cell on every invocation, as every test of the
repository does): after tie-back the cell holds the completed definition,
so each self-invocation unrolls it once more.  The fuel bounds the number
of such re-reads; exhaustion (a recursion deeper than `fuel`) is a
distinguished diagnostic that the placeholder never produces. -/
def recursive_unroll {T : Type} (makeParser : Parser T → Parser T) : Nat → Parser T
  | 0 => fun input => empty_parse_result T input "Error: model recursion depth exhausted"
  | fuel + 1 => makeParser (recursive_unroll makeParser fuel)

/-- Models `parsers::number()` (identical to `parse_number()` of the
style-sheet example): `positive_number` is a leading digit in `[1, 9]`
followed by zero or more digits folded into the value; `zero` is the digit
`0` not followed by any digit; the integer is `positive_number`, or else
`zero`, or else `'-'` followed by `positive_number`, negated. -/
def number : Parser Int :=
  let positive_number :=
    and_then (parse_digit 1 9) (fun val =>
      transform (parse_someV (parse_digit 0 9) none) (fun digits =>
        digits.foldl (fun result d => result * 10 + d) val))
  let zero := and_not (parse_digit 0 0) (parse_digit 0 9) toString
  or_else (or_else positive_number zero)
    (transform (and_thenP (parse_literal '-') positive_number) (fun val => -val))

/-! ### Out-of-bounds-tracking variants of the primitive matchers

Each `*_chk` definition re-traces its primitive exactly, but routes every
`input.front()` call through `front?` and every `input.substr(1)` through
an explicit emptiness match; the outcome is `none` exactly when the C++
accesses the buffer past its end (an out-of-bounds read for `front()`, a
`std::out_of_range` throw for `substr(1)` on an empty view). -/

/-- Models `input.front()`: `none` when the view is empty, i.e. the read
is out of bounds. -/
def front? : List Char → Option Char
  | [] => none
  | c :: _ => some c

/-- `parse_literal` with out-of-bounds tracking: the success test
`!input.empty() && input.front() == ch` short-circuits, but the failure
branch formats `input.front()` unconditionally. -/
def parse_literal_chk (ch : Char) : List Char → Option (ParseResult (List Char)) :=
  fun input =>
    if !input.isEmpty && (frontD input == ch) then
      some (make_parse_result (input.take 1) (input.drop 1))
    else
      (front? input).map (fun c =>
        empty_parse_result (List Char) input
          ("Expected " ++ toString ch ++ " but saw " ++ toString c))

/-- `parse_range` with out-of-bounds tracking: the in-range test is
guarded by `!input.empty()`, but the failure branch formats
`input.front()` unconditionally. -/
def parse_range_chk (first last : Char) : List Char → Option (ParseResult (List Char)) :=
  fun input =>
    match front? input with
    | some c =>
      if decide (first ≤ c) && decide (c ≤ last) then
        some (make_parse_result (input.take 1) (input.drop 1))
      else
        some (empty_parse_result (List Char) input
          ("Error: expected [" ++ toString first ++ "-" ++ toString last ++
            "] but saw " ++ toString c))
    | none => none

/-- `parse_str` with out-of-bounds tracking: `starts_with` and the failure
message never index past the end, so every outcome is defined. -/
def parse_str_chk (str : List Char) : List Char → Option (ParseResult (List Char)) :=
  fun input =>
    if str.isPrefixOf input then
      some (make_parse_result (input.take str.length) (input.drop str.length))
    else
      some (empty_parse_result (List Char) input
        ("Error: expected " ++ String.mk str ++ " but saw " ++ String.mk input))

/-- `parse_any_of` with out-of-bounds tracking: the first operation is
`str_contains(str, input.front())`, unguarded. -/
def parse_any_of_chk (str : List Char) : List Char → Option (ParseResult (List Char)) :=
  fun input =>
    (front? input).map (fun c =>
      if !str_contains str c then
        empty_parse_result (List Char) input
          ("Error: expected any of " ++ String.mk str ++ " but saw " ++ toString c)
      else
        make_parse_result (input.take 1) (input.drop 1))

/-- `parse_none_of` with out-of-bounds tracking: unguarded `front()` as in
`parse_any_of`. -/
def parse_none_of_chk (str : List Char) : List Char → Option (ParseResult (List Char)) :=
  fun input =>
    (front? input).map (fun c =>
      if str_contains str c then
        empty_parse_result (List Char) input
          ("Error: expected none of " ++ String.mk str ++ " but saw " ++ toString c)
      else
        make_parse_result (input.take 1) (input.drop 1))

/-- `parse_any` with out-of-bounds tracking: the emptiness check comes
first, so every outcome is defined. -/
def parse_any_chk : List Char → Option (ParseResult (List Char)) := fun input =>
  if input.isEmpty then
    some (empty_parse_result (List Char) input "Error: empty input")
  else
    some (make_parse_result (input.take 1) (input.drop 1))

/-- `detail::parse_char_class` with out-of-bounds tracking: the matcher is
applied to `input.front()` with no emptiness check. -/
def parse_char_class_chk (matcher : Char → Bool) :
    List Char → Option (ParseResult (List Char)) := fun input =>
  (front? input).map (fun c =>
    if matcher c then
      make_parse_result (input.take 1) (input.drop 1)
    else
      empty_parse_result (List Char) input ("Error: unexpected char " ++ toString c))

/-- `parse_digit` with out-of-bounds tracking: its character class plus
the value transform. -/
def parse_digit_chk (first last : Int) : List Char → Option (ParseResult Int) :=
  fun input =>
    (parse_char_class_chk (fun ch =>
        isdigitB ch && (decide (first ≤ digitVal ch) && decide (digitVal ch ≤ last)))
      input).map (fun r =>
        match r.result with
        | none => empty_parse_result Int r.input r.error
        | some str => make_parse_result (digitVal (frontD str)) r.input)

/-- `parse_end` with out-of-bounds tracking: no buffer access at all. -/
def parse_end_chk : List Char → Option (ParseResult Unit) := fun input =>
  if !input.isEmpty then
    some (empty_parse_result Unit input "Error: input not empty")
  else
    some (make_parse_result () input)

/-- `parse_not` with out-of-bounds tracking: when the inner parser fails,
the source returns `input.substr(0, 1)` (defined, it clamps) and
`input.substr(1)`, which throws `std::out_of_range` on an empty view. -/
def parse_not_chk {T : Type} (parser : List Char → Option (ParseResult T)) :
    List Char → Option (ParseResult (List Char)) := fun input =>
  (parser input).bind (fun result =>
    match result.result with
    | some _ => some (empty_parse_result (List Char) input "Error: not")
    | none =>
      match input with
      | [] => none
      | _ :: rest => some (make_parse_result (input.take 1) rest))

/-! ### The span view of `detail::append`

`detail::append(string_view item, string_view sv)` is stated over the
pointer identity of the two views into the backing buffer; a
`string_view` is modelled as its offset and length there. -/

/-- A `std::string_view` into the backing buffer: start offset and
length. -/
structure Span where
  off : Nat
  len : Nat
deriving Repr, DecidableEq

/-- Models `detail::append(string_view item, string_view sv)`:
`assert(sv.data() + sv.size() == item.data())`, then the union span.
`none` is the assertion firing (the two views are not byte-adjacent). -/
def append (item sv : Span) : Option Span :=
  if sv.off + sv.len = item.off then some ⟨sv.off, sv.len + item.len⟩ else none

/-! ### Concrete parsers used as inputs of theorems

These are client parser values (each constructible through the public
`Parser` constructor or the library factories); they embed no engine
logic. -/

/-- A span-valued client parser that consumes two characters but returns
only the first as its value slice, so that consecutive matches are not
byte-adjacent in the backing buffer. -/
def pSkip : Parser (List Char) := fun input =>
  match input with
  | a :: _ :: rest => make_parse_result [a] rest
  | _ => empty_parse_result (List Char) input "Error: need two chars"

/-- The grammar `P ::= 'b' | 'a' P`, written as a `parse_recursive`
builder that embeds the handed-in parser directly (by value, without
`parse_ref`). -/
def f_cex (p : Parser (List Char)) : Parser (List Char) :=
  or_else (parse_literal 'b') (and_thenP (parse_literal 'a') p)

/-- The parenthesised-number grammar of the repository's
`RecursiveParser` test: `term ::= number | '(' term ')'`, with the
self-reference read through `parse_ref`. -/
def f_term (p : Parser Int) : Parser Int :=
  or_else number (skip (and_thenP (parse_literal '(') p) (parse_literal ')'))

/-! ### Helper notions for the repetition theorems -/

/-- A parser consumes input: whenever it succeeds, its remainder is
strictly shorter than its input.  Every primitive matcher of the library
has this property; `pure` and `parse_opt` do not. -/
def Consumes {T : Type} (p : Parser T) : Prop :=
  ∀ s, (p s).result.isSome → (p s).input.length < s.length

/-- `j` consecutive successful applications of `p` starting at `s`,
collecting the values in order and ending at the final remainder; `none`
when some application among the first `j` fails. -/
def iterParse {T : Type} (p : Parser T) : Nat → List Char → Option (List T × List Char)
  | 0, s => some ([], s)
  | j + 1, s =>
    match (p s).result with
    | none => none
    | some v =>
      match iterParse p j ((p s).input) with
      | none => none
      | some (vs, rest) => some (v :: vs, rest)

theorem iterParse_length {T : Type} (p : Parser T) :
    ∀ (j : Nat) (s : List Char) (vs : List T) (rest : List Char),
      iterParse p j s = some (vs, rest) → vs.length = j := by
  intro j
  induction j with
  | zero =>
    intro s vs rest h
    simp [iterParse] at h
    simp [h.1]
  | succ n ih =>
    intro s vs rest h
    simp only [iterParse] at h
    cases hres : (p s).result with
    | none => rw [hres] at h; simp at h
    | some v =>
      rw [hres] at h
      cases hiter : iterParse p n ((p s).input) with
      | none => rw [hiter] at h; simp at h
      | some pr =>
        obtain ⟨vs', rest'⟩ := pr
        rw [hiter] at h
        simp only [Option.some.injEq, Prod.mk.injEq] at h
        obtain ⟨hvs, hrest⟩ := h
        subst hvs
        simp [ih _ _ _ hiter]

theorem iterParse_rest_le {T : Type} (p : Parser T) (hp : Consumes p) :
    ∀ (j : Nat) (s : List Char) (vs : List T) (rest : List Char),
      iterParse p j s = some (vs, rest) → rest.length ≤ s.length := by
  intro j
  induction j with
  | zero =>
    intro s vs rest h
    simp [iterParse] at h
    simp [h.2]
  | succ n ih =>
    intro s vs rest h
    simp only [iterParse] at h
    cases hres : (p s).result with
    | none => rw [hres] at h; simp at h
    | some v =>
      rw [hres] at h
      cases hiter : iterParse p n ((p s).input) with
      | none => rw [hiter] at h; simp at h
      | some pr =>
        obtain ⟨vs', rest'⟩ := pr
        rw [hiter] at h
        simp only [Option.some.injEq, Prod.mk.injEq] at h
        obtain ⟨hvs, hrest⟩ := h
        subst hrest
        have h1 := ih _ _ _ hiter
        have h2 := hp s (by simp [hres])
        omega

/-- Under `Consumes`, a maximal `iterParse` trace exists: the loop of
`parse_some` runs some number of times and then stops, either at the end
of the input or at the first failure of `p`. -/
theorem iterParse_exists {T : Type} (p : Parser T) (hp : Consumes p) :
    ∀ (n : Nat) (s : List Char), s.length ≤ n →
      ∃ j vs rest, iterParse p j s = some (vs, rest) ∧
        (rest = [] ∨ (p rest).result = none) := by
  intro n
  induction n with
  | zero =>
    intro s hs
    refine ⟨0, [], s, by simp [iterParse], Or.inl ?_⟩
    cases s with
    | nil => rfl
    | cons c t => simp at hs
  | succ n ih =>
    intro s hs
    cases hres : (p s).result with
    | none => exact ⟨0, [], s, by simp [iterParse], Or.inr hres⟩
    | some v =>
      have hlt := hp s (by simp [hres])
      obtain ⟨j, vs, rest, hiter, hterm⟩ := ih ((p s).input) (by omega)
      exact ⟨j + 1, v :: vs, rest, by simp [iterParse, hres, hiter], hterm⟩

/-- The loop of the vector `parse_some` (no maximum) follows the maximal
`iterParse` trace exactly: given enough fuel it returns the accumulated
values and stops at the trace's terminal position, always succeeding. -/
theorem someLoopV_of_iter {T : Type} (p : Parser T) (hp : Consumes p) :
    ∀ (j : Nat) (s : List Char) (fuel : Nat) (acc vs : List T) (rest : List Char),
      s.length < fuel →
      iterParse p j s = some (vs, rest) →
      (rest = [] ∨ (p rest).result = none) →
      someLoopV p none fuel acc s = some (make_parse_result (acc ++ vs) rest) := by
  intro j
  induction j with
  | zero =>
    intro s fuel acc vs rest hfuel hiter hterm
    simp [iterParse] at hiter
    obtain ⟨hvs, hrest⟩ := hiter
    subst hvs; subst hrest
    cases fuel with
    | zero => omega
    | succ g =>
      rcases hterm with hnil | hfail
      · subst hnil
        simp [someLoopV]
      · cases s with
        | nil => simp [someLoopV]
        | cons c t => simp [someLoopV, hfail]
  | succ n ih =>
    intro s fuel acc vs rest hfuel hiter hterm
    simp only [iterParse] at hiter
    cases hres : (p s).result with
    | none => rw [hres] at hiter; simp at hiter
    | some v =>
      rw [hres] at hiter
      cases hiter' : iterParse p n ((p s).input) with
      | none => rw [hiter'] at hiter; simp at hiter
      | some pr =>
        obtain ⟨vs', rest'⟩ := pr
        rw [hiter'] at hiter
        simp only [Option.some.injEq, Prod.mk.injEq] at hiter
        obtain ⟨hvs, hrest⟩ := hiter
        subst hvs; subst hrest
        have hlt := hp s (by simp [hres])
        have hne : s ≠ [] := by
          intro hs; subst hs; simp at hlt
        cases fuel with
        | zero => omega
        | succ g =>
          have hrec := ih ((p s).input) g (acc ++ [v]) vs' rest' (by omega) hiter' hterm
          cases s with
          | nil => exact absurd rfl hne
          | cons c t =>
            simp only [someLoopV, List.isEmpty_cons, Bool.false_eq_true, if_false, hres]
            rw [hrec]
            simp

/-- `parse_someV` (no maximum) computed from a maximal `iterParse` trace:
the baked-in fuel of `input.length + 1` always suffices for a consuming
parser. -/
theorem parse_someV_of_iter {T : Type} (p : Parser T) (hp : Consumes p)
    (j : Nat) (s : List Char) (vs : List T) (rest : List Char)
    (hiter : iterParse p j s = some (vs, rest))
    (hterm : rest = [] ∨ (p rest).result = none) :
    parse_someV p none s = make_parse_result vs rest := by
  unfold parse_someV
  rw [someLoopV_of_iter p hp j s (s.length + 1) [] vs rest (by omega) hiter hterm]
  simp

/-- With no maximum and a consuming parser, the loop of the
span-coalescing `parse_some` finishes within the fuel, succeeds, and its
remainder is no longer than the position it started from. -/
theorem someLoopSV_total (p : Parser (List Char)) (hp : Consumes p) :
    ∀ (fuel size count : Nat) (inp input : List Char), inp.length < fuel →
      ∃ r, someLoopSV p none input fuel size count inp = some r ∧
        r.result.isSome ∧ r.input.length ≤ inp.length := by
  intro fuel
  induction fuel with
  | zero => intro size count inp input h; omega
  | succ g ih =>
    intro size count inp input hfuel
    cases hinp : inp with
    | nil =>
      refine ⟨make_parse_result (input.take size) [], ?_, ?_, ?_⟩
      · simp [someLoopSV]
      · simp [make_parse_result]
      · simp [make_parse_result]
    | cons c t =>
      subst hinp
      cases hres : (p (c :: t)).result with
      | none =>
        refine ⟨make_parse_result (input.take size) (c :: t), ?_, ?_, ?_⟩
        · simp [someLoopSV, hres]
        · simp [make_parse_result]
        · simp [make_parse_result]
      | some v =>
        have hlt := hp (c :: t) (by simp [hres])
        obtain ⟨r, hloop, hsome, hle⟩ :=
          ih (size + v.length) (count + 1) ((p (c :: t)).input) input (by omega)
        refine ⟨r, ?_, hsome, by simp at hlt ⊢; omega⟩
        simp only [someLoopSV, List.isEmpty_cons, Bool.false_eq_true, if_false, hres]
        exact hloop

/-- The span-coalescing loop over a run of single-character matches:
starting anywhere in the run it adds the run's length to the accumulated
size and stops exactly where the run meets `tail`. -/
theorem someLoopSV_run (m : Parser (List Char)) (tail input : List Char)
    (hterm : tail = [] ∨ (m tail).result = none) :
    ∀ (run : List Char) (fuel size count : Nat),
      (run ++ tail).length < fuel →
      (∀ r, r ∈ run.tails → r ≠ [] →
        m (r ++ tail) = make_parse_result (r.take 1) (r.drop 1 ++ tail)) →
      someLoopSV m none input fuel size count (run ++ tail)
        = some (make_parse_result (input.take (size + run.length)) tail) := by
  intro run
  induction run with
  | nil =>
    intro fuel size count hfuel _
    cases fuel with
    | zero => omega
    | succ g =>
      rcases hterm with hnil | hfail
      · subst hnil; simp [someLoopSV]
      · cases htail : tail with
        | nil => simp [someLoopSV]
        | cons c t =>
          subst htail
          simp [someLoopSV, hfail]
  | cons c run' ih =>
    intro fuel size count hfuel hmatch
    have hm := hmatch (c :: run') (by rw [List.tails_cons]; exact List.mem_cons_self _ _)
      (by simp)
    simp only [List.take_succ_cons, List.take_zero, List.drop_succ_cons, List.drop_zero,
      List.cons_append] at hm
    cases fuel with
    | zero => omega
    | succ g =>
      have hrec := ih g (size + 1) (count + 1)
        (by simp only [List.cons_append, List.length_cons, List.length_append] at hfuel ⊢
            omega)
        (fun r hr hne => hmatch r (by rw [List.tails_cons]; exact List.mem_cons_of_mem _ hr) hne)
      rw [List.cons_append]
      simp only [someLoopSV, List.isEmpty_cons, Bool.false_eq_true, if_false, hm,
        make_parse_result, List.length_cons, List.length_nil]
      rw [show size + (run'.length + 1) = size + 1 + run'.length from by omega]
      exact hrec

/-- The span-coalescing `parse_some` (no maximum) over a run of
single-character matches followed by a non-matching tail returns the run
as one value and the tail as the remainder. -/
theorem parse_someSV_run (m : Parser (List Char)) (run tail : List Char)
    (hmatch : ∀ r, r ∈ run.tails → r ≠ [] →
      m (r ++ tail) = make_parse_result (r.take 1) (r.drop 1 ++ tail))
    (hterm : tail = [] ∨ (m tail).result = none) :
    parse_someSV m none (run ++ tail) = make_parse_result run tail := by
  unfold parse_someSV
  rw [someLoopSV_run m tail (run ++ tail) hterm run ((run ++ tail).length + 1) 0 0
    (by omega) hmatch]
  simp [List.take_left]

theorem Consumes_parse_literal (ch : Char) : Consumes (parse_literal ch) := by
  intro s
  unfold parse_literal
  split
  · rename_i hcond
    intro _
    cases s with
    | nil => simp at hcond
    | cons c t => simp [make_parse_result]
  · intro h
    simp [empty_parse_result] at h

theorem Consumes_parse_any_of (set : List Char)
    (hnul : str_contains set (Char.ofNat 0) = false) : Consumes (parse_any_of set) := by
  intro s
  unfold parse_any_of
  split
  · intro h
    simp [empty_parse_result] at h
  · rename_i hcond
    intro _
    cases s with
    | nil => simp [frontD, hnul] at hcond
    | cons c t => simp [make_parse_result]

theorem Consumes_skip {T U : Type} (a : Parser T) (b : Parser U)
    (ha : Consumes a) (hb : Consumes b) : Consumes (skip a b) := by
  intro s
  unfold skip
  cases hres : (a s).result with
  | none =>
    simp only [hres]
    intro h
    simp [empty_parse_result] at h
  | some v =>
    cases hnext : (b ((a s).input)).result with
    | none =>
      simp only [hres, hnext]
      intro h
      simp [empty_parse_result] at h
    | some w =>
      simp only [hres, hnext]
      intro _
      have h1 := ha s (by simp [hres])
      have h2 := hb ((a s).input) (by simp [hnext])
      simp [make_parse_result]
      omega

/-! ### Claim theorems -/

/-- C3: for all parsers `a` and `b` of the same value type and every
input `s`, if `a` succeeds on `s` then `or_else(a, b)(s)` equals `a(s)`
exactly (same value and same remainder), regardless of what `b` would do;
if `a` fails on `s` then `or_else(a, b)(s)` equals `b(s)`, run against the
original input `s`. -/
theorem C3_or_else_left_bias :
    ∀ (T : Type) (a b : Parser T) (s : List Char),
      ((a s).result.isSome → or_else a b s = a s) ∧
      ((a s).result = none → or_else a b s = b s) := by
  intro T a b s
  constructor
  · intro h
    unfold or_else
    cases hres : (a s).result with
    | none => rw [hres] at h; simp at h
    | some v => simp only [hres]
  · intro h
    unfold or_else
    simp only [h]

theorem C3_or_else_left_bias_witness :
    or_else (parse_literal 'a') (parse_literal 'b') ['a', 'b']
        = parse_literal 'a' ['a', 'b'] ∧
    or_else (parse_literal 'a') (parse_literal 'b') ['x', 'b']
        = parse_literal 'b' ['x', 'b'] :=
  ⟨(C3_or_else_left_bias (List Char) (parse_literal 'a') (parse_literal 'b')
      ['a', 'b']).1 (by decide),
   (C3_or_else_left_bias (List Char) (parse_literal 'a') (parse_literal 'b')
      ['x', 'b']).2 (by decide)⟩

/-- C10: for all parsers `a`, `b` and input `s`, if `a` succeeds on `s`
and `b` then succeeds at `a`'s remainder, `and_not(a, b)` fails with
`remaining` equal to the original input `s` (the position is rewound to
before `a`'s match) and a diagnostic naming the value that `b`
unexpectedly parsed; if instead `b` fails at `a`'s remainder,
`and_not(a, b)(s)` equals `a(s)` exactly. -/
theorem C10_and_not_negative_lookahead :
    ∀ (T U : Type) (a : Parser T) (b : Parser U) (toStr : U → String) (s : List Char),
      (∀ w, (a s).result.isSome → (b ((a s).input)).result = some w →
        and_not a b toStr s
          = empty_parse_result T s ("Expected failure but parsed " ++ toStr w)) ∧
      ((a s).result.isSome → (b ((a s).input)).result = none →
        and_not a b toStr s = a s) := by
  intro T U a b toStr s
  constructor
  · intro w hsome hnext
    unfold and_not
    cases hres : (a s).result with
    | none => rw [hres] at hsome; simp at hsome
    | some v => simp only [hres, hnext]
  · intro hsome hnext
    unfold and_not
    cases hres : (a s).result with
    | none => rw [hres] at hsome; simp at hsome
    | some v => simp only [hres, hnext]

theorem C10_and_not_negative_lookahead_witness :
    and_not (parse_range 'a' 'z') (parse_literal 'x') (fun w => String.mk w) ['x', 'x']
        = empty_parse_result (List Char) ['x', 'x']
            ("Expected failure but parsed " ++ String.mk ['x']) ∧
    and_not (parse_range 'a' 'z') (parse_literal 'x') (fun w => String.mk w) ['a', 'b']
        = parse_range 'a' 'z' ['a', 'b'] :=
  ⟨(C10_and_not_negative_lookahead (List Char) (List Char) (parse_range 'a' 'z')
      (parse_literal 'x') (fun w => String.mk w) ['x', 'x']).1 ['x'] (by decide) (by decide),
   (C10_and_not_negative_lookahead (List Char) (List Char) (parse_range 'a' 'z')
      (parse_literal 'x') (fun w => String.mk w) ['a', 'b']).2 (by decide) (by decide)⟩

/-- C7: on failure the `remaining` field reports where the parse gave up:
a failing simple primitive reports its original, pre-attempt input; a
compound combinator whose first sub-parser fails reports the original
input; `skip(a, b)` with `b` failing after `a`'s success reports `a`'s
remainder (the position at which the failing sub-parse was attempted). -/
theorem C7_failure_position :
    (∀ (ch : Char) (s : List Char), (parse_literal ch s).result = none →
      (parse_literal ch s).input = s) ∧
    (∀ (set s : List Char), (parse_any_of set s).result = none →
      (parse_any_of set s).input = s) ∧
    (∀ (T U : Type) (a : Parser T) (b : Parser U) (s : List Char),
      (a s).result = none →
      skip a b s = empty_parse_result T s ((a s).error) ∧
      and_thenP a b s = empty_parse_result U s ((a s).error)) ∧
    (∀ (T U : Type) (a : Parser T) (b : Parser U) (s : List Char),
      (a s).result.isSome →
      (b ((a s).input)).result = none →
      skip a b s = empty_parse_result T ((a s).input) ((b ((a s).input)).error)) := by
  refine ⟨?_, ?_, ?_, ?_⟩
  · intro ch s h
    unfold parse_literal at h ⊢
    split at h
    · simp [make_parse_result] at h
    · rename_i hc
      rw [if_neg hc]
      rfl
  · intro set s h
    unfold parse_any_of at h ⊢
    split at h
    · rename_i hc
      rw [if_pos hc]
      rfl
    · simp [make_parse_result] at h
  · intro T U a b s h
    constructor
    · unfold skip
      simp only [h]
    · unfold and_thenP
      simp only [h]
  · intro T U a b s hsome hnext
    unfold skip
    cases hres : (a s).result with
    | none => rw [hres] at hsome; simp at hsome
    | some v => simp only [hres, hnext]

theorem C7_failure_position_witness :
    (parse_literal 'a' ['b']).input = ['b'] ∧
    skip (parse_literal 'a') (parse_literal ',') ['x']
        = empty_parse_result (List Char) ['x'] ((parse_literal 'a' ['x']).error) ∧
    skip (parse_literal 'a') (parse_literal ',') ['a', 'x']
        = empty_parse_result (List Char) ((parse_literal 'a' ['a', 'x']).input)
            ((parse_literal ',' ((parse_literal 'a' ['a', 'x']).input)).error) :=
  ⟨C7_failure_position.1 'a' ['b'] (by decide),
   (C7_failure_position.2.2.1 (List Char) (List Char) (parse_literal 'a')
      (parse_literal ',') ['x'] (by decide)).1,
   C7_failure_position.2.2.2 (List Char) (List Char) (parse_literal 'a')
      (parse_literal ',') ['a', 'x'] (by decide) (by decide)⟩

/-- C9: the integer grammar `parsers::number()` parses `"0"` to `0`,
`"123"` to `123` and `"-123"` to `-123`, and fails on `"01"` (no leading
zero) and on `"-0"` (no negative zero). -/
theorem C9_number_grammar_golden :
    number "0".toList = make_parse_result 0 [] ∧
    number "123".toList = make_parse_result 123 [] ∧
    number "-123".toList = make_parse_result (-123) [] ∧
    (number "01".toList).result = none ∧
    (number "-0".toList).result = none := by
  decide

/-- C5: applied to the empty input, `parse_str`, `parse_any` and
`parse_end` produce defined outcomes, but `literal`, `range`, `any_of`,
`none_of`, the digit character class, and `not` all reach a buffer access
past the end (`none` in the checked model): the out-of-bounds branch *is*
reachable on the empty input, contrary to the claim. -/
theorem C5_empty_input_out_of_bounds :
    parse_literal_chk 'a' [] = none ∧
    parse_range_chk 'a' 'z' [] = none ∧
    parse_any_of_chk "abcd".toList [] = none ∧
    parse_none_of_chk "x".toList [] = none ∧
    parse_char_class_chk isdigitB [] = none ∧
    parse_digit_chk 0 9 [] = none ∧
    parse_not_chk (parse_str_chk "x".toList) [] = none ∧
    parse_str_chk "x".toList []
        = some (empty_parse_result (List Char) [] "Error: expected x but saw ") ∧
    parse_any_chk [] = some (empty_parse_result (List Char) [] "Error: empty input") ∧
    parse_end_chk [] = some (make_parse_result () []) := by
  decide

/-- C8 (amended): for a builder whose self-references all read through the
shared cell (`parse_ref`), the tied parser satisfies the unrolling
equation — one invocation behaves exactly like the completed definition
with the self-reference bound to the rest of the unrolling — and on the
repository's parenthesised-number grammar it yields the grammar's result,
never the placeholder's always-fail result, at every sufficient depth. -/
theorem C8_recursive_ref_unrolling :
    (∀ (T : Type) (f : Parser T → Parser T) (n : Nat),
      recursive_unroll f (n + 1) = f (recursive_unroll f n)) ∧
    recursive_unroll f_term 2 "(20)".toList = make_parse_result 20 [] ∧
    recursive_unroll f_term 5 "(20)".toList = make_parse_result 20 [] ∧
    recursive_unroll f_term 3 "((7))".toList = make_parse_result 7 [] := by
  refine ⟨fun T f n => rfl, by decide, by decide, by decide⟩

/-- C8 (counterexample): a builder that embeds the handed-in parser by
value — `P ::= 'b' | 'a' P` written without `parse_ref` — keeps the
always-fail placeholder: on `"ab"` the tied parser yields exactly the
placeholder's failure (`"Error: never"`), while the completed recursive
definition (self-reference read through the cell) succeeds. -/
theorem C8_byval_placeholder_reached :
    parse_recursive_byval f_cex "ab".toList
        = empty_parse_result (List Char) "b".toList "Error: never" ∧
    recursive_unroll f_cex 2 "ab".toList = make_parse_result "b".toList [] := by
  decide

/-- C2 (amended): for every parser `p` that consumes input whenever it
succeeds, `some(p)` invoked without a maximum bound always succeeds —
never returns a failure, even with zero matches — and the length of the
remainder it returns is at most the length of the input; this holds for
both the generic (vector) and the span-coalescing (`StringParser`)
overloads of `parse_some`. -/
theorem C2_some_total_for_consuming :
    (∀ (T : Type) (p : Parser T) (s : List Char), Consumes p →
      (parse_someV p none s).result.isSome ∧
      (parse_someV p none s).input.length ≤ s.length) ∧
    (∀ (q : Parser (List Char)) (s : List Char), Consumes q →
      (parse_someSV q none s).result.isSome ∧
      (parse_someSV q none s).input.length ≤ s.length) := by
  constructor
  · intro T p s hp
    obtain ⟨j, vs, rest, hiter, hterm⟩ := iterParse_exists p hp s.length s (le_refl _)
    rw [parse_someV_of_iter p hp j s vs rest hiter hterm]
    refine ⟨by simp [make_parse_result], ?_⟩
    simpa [make_parse_result] using iterParse_rest_le p hp j s vs rest hiter
  · intro q s hq
    obtain ⟨r, hloop, hsome, hle⟩ :=
      someLoopSV_total q hq (s.length + 1) 0 0 s s (by omega)
    unfold parse_someSV
    rw [hloop]
    exact ⟨hsome, hle⟩

theorem C2_some_total_for_consuming_witness :
    ((parse_someV (parse_literal 'x') none "xy".toList).result.isSome ∧
      (parse_someV (parse_literal 'x') none "xy".toList).input.length
        ≤ ("xy".toList).length) ∧
    ((parse_someSV (parse_literal 'x') none "xy".toList).result.isSome ∧
      (parse_someSV (parse_literal 'x') none "xy".toList).input.length
        ≤ ("xy".toList).length) :=
  ⟨C2_some_total_for_consuming.1 (List Char) (parse_literal 'x') "xy".toList
      (Consumes_parse_literal 'x'),
   C2_some_total_for_consuming.2 (parse_literal 'x') "xy".toList
      (Consumes_parse_literal 'x')⟩

/-- C2 (counterexample): for the non-consuming parser `pure(0)` —
constructible with the library's own `pure` factory — and the non-empty
input `"a"`, the loop of `some(pure(0))` never finishes: no amount of fuel
makes it produce an outcome, so `some(p)(s)` is not a total function for
arbitrary `p`. -/
theorem C2_nonconsuming_some_diverges :
    ¬ parse_someV_terminates (pureP (0 : Int)) none ['a'] := by
  intro h
  obtain ⟨fuel, hfuel⟩ := h
  have hnone : ∀ (fuel : Nat) (acc : List Int),
      someLoopV (pureP (0 : Int)) none fuel acc ['a'] = none := by
    intro fuel
    induction fuel with
    | zero => intro acc; rfl
    | succ n ih =>
      intro acc
      simp only [someLoopV, List.isEmpty_cons, Bool.false_eq_true, if_false, pureP,
        make_parse_result]
      exact ih (acc ++ [0])
  rw [hnone fuel []] at hfuel
  simp at hfuel

/-- C4 (amended): in the final `parser.h`, omitting `max` in `n(p, min)`
leaves the repetition *unbounded* (it does not default to `min`): the
underlying `parse_some` collects every consecutive match, and `n`
succeeds with all of them exactly when at least `min` were obtained.  In
particular, on an input with exactly `k` matches followed by a non-match
it succeeds with `k` results and the remainder right after the `k`-th
match, and with only `k - 1` matches it fails — but when `p` would match
beyond the `k`-th occurrence, `n(p, k)` keeps consuming and returns more
than `k` results instead of stopping at `k`. -/
theorem C4_n_default_max_unbounded :
    ∀ (T : Type) (p : Parser T) (k j : Nat) (s : List Char) (vs : List T)
      (rest : List Char),
      Consumes p →
      iterParse p j s = some (vs, rest) →
      (rest = [] ∨ (p rest).result = none) →
      (j < k → parse_nV p k none s = empty_parse_result (List T) rest "Error: never") ∧
      (k ≤ j → parse_nV p k none s = make_parse_result vs rest) := by
  intro T p k j s vs rest hp hiter hterm
  have hsome := parse_someV_of_iter p hp j s vs rest hiter hterm
  have hlen := iterParse_length p j s vs rest hiter
  constructor
  · intro hjk
    unfold parse_nV and_then
    simp only [hsome, make_parse_result]
    rw [if_pos (by omega)]
    rfl
  · intro hkj
    unfold parse_nV and_then
    simp only [hsome, make_parse_result]
    rw [if_neg (by omega)]
    rfl

theorem C4_n_default_max_unbounded_witness :
    parse_nV (parse_any_of ['a']) 2 none "aab".toList
      = make_parse_result [['a'], ['a']] "b".toList :=
  (C4_n_default_max_unbounded (List Char) (parse_any_of ['a']) 2 2 "aab".toList
      [['a'], ['a']] "b".toList
      (Consumes_parse_any_of ['a'] (by decide)) (by decide) (Or.inr (by decide))).2
    (by decide)

/-- C4 (counterexample): with `max` omitted and `k = 1`, on the input
`"aa"` — where `p` also matches beyond the 1st occurrence — both `parse_n`
overloads succeed with *two* collected matches and an empty remainder,
not with exactly one result and the remainder positioned right after the
first match: `max` does not default to `min`. -/
theorem C4_default_max_counterexample :
    parse_nV (parse_any_of ['a']) 1 none "aa".toList
        = make_parse_result [['a'], ['a']] [] ∧
    parse_nSV (parse_any_of ['a']) 1 none "aa".toList
        = make_parse_result "aa".toList [] ∧
    ([['a'], ['a']] : List (List Char)).length ≠ 1 := by
  decide

/-- C6 (amended): over a span-valued parser that matches single characters
of a run, the coalescing `parse_some` returns one value — the whole run,
a single slice of the input — with the tail as remainder; and the
adjacency assert of `detail::append` accepts exactly byte-adjacent spans.
However the coalescing combinator itself performs no adjacency check
(see the counterexample): `detail::append` is not invoked by it. -/
theorem C6_span_coalescing :
    (∀ (m : Parser (List Char)) (run tail : List Char),
      (∀ r, r ∈ run.tails → r ≠ [] →
        m (r ++ tail) = make_parse_result (r.take 1) (r.drop 1 ++ tail)) →
      (tail = [] ∨ (m tail).result = none) →
      parse_someSV m none (run ++ tail) = make_parse_result run tail) ∧
    parse_someSV (parse_literal 'a') none "aaab".toList
        = make_parse_result "aaa".toList "b".toList ∧
    append ⟨1, 1⟩ ⟨0, 1⟩ = some ⟨0, 2⟩ ∧
    append ⟨2, 1⟩ ⟨0, 1⟩ = none := by
  refine ⟨parse_someSV_run, by decide, by decide, by decide⟩

theorem C6_span_coalescing_witness :
    parse_someSV (parse_literal 'a') none ("aaa".toList ++ "b".toList)
      = make_parse_result "aaa".toList "b".toList :=
  C6_span_coalescing.1 (parse_literal 'a') "aaa".toList "b".toList
    (by decide) (Or.inr (by decide))

/-- C6 (counterexample): a span-valued parser that consumes two characters
per match but returns only the first as its value produces matched slices
that are *not* byte-adjacent (positions 0 and 2 of `"abcd"`); the
coalescing `parse_some` nevertheless silently returns the two-byte prefix
`"ab"` of the input — a "fused" span that is not the concatenation
`"ac"` of the matched slices — with no assertion or failure: slices are
fused by accumulated length, not only when byte-adjacent. -/
theorem C6_nonadjacent_fused_silently :
    parse_someSV pSkip none "abcd".toList = make_parse_result "ab".toList [] ∧
    iterParse pSkip 2 "abcd".toList = some (["a".toList, "c".toList], []) ∧
    ("ab".toList : List Char) ≠ "a".toList ++ "c".toList := by
  decide

/-- C1: `delimited_by(item, delimiter, terminator)` parses zero or more
`item`-then-`delimiter` pairs, then one final bare `item`, then requires
`terminator` to succeed immediately after the final item without
consuming it: on success the remainder is the position right after the
final item (the terminator's match still at its front); it fails when the
final bare item fails or when the terminator does not match there.  The
specific golden case of the spec holds as stated. -/
theorem C1_delimited_by_contract :
    (∀ (T D S : Type) (item : Parser T) (delim : Parser D) (term : Parser S)
        (j : Nat) (s : List Char) (vs : List T) (s₁ : List Char),
      Consumes (skip item delim) →
      iterParse (skip item delim) j s = some (vs, s₁) →
      (s₁ = [] ∨ ((skip item delim) s₁).result = none) →
      ((item s₁).result = none →
        parse_delimited_by item delim term s
          = empty_parse_result (List T) s₁ ((item s₁).error)) ∧
      (∀ v, (item s₁).result = some v →
        ((term ((item s₁).input)).result = none →
          parse_delimited_by item delim term s
            = empty_parse_result (List T) ((term ((item s₁).input)).input)
                ((term ((item s₁).input)).error)) ∧
        ((term ((item s₁).input)).result.isSome →
          parse_delimited_by item delim term s
            = make_parse_result (vs ++ [v]) ((item s₁).input)))) ∧
    parse_delimited_by (parse_nSV (parse_any_of "abcd".toList) 1 (some 2))
        (parse_literal ',') (parse_literal ';') "a,bc,d;".toList
      = make_parse_result ["a".toList, "bc".toList, "d".toList] ";".toList := by
  constructor
  · intro T D S item delim term j s vs s₁ hcons hiter hterm
    have htok := parse_someV_of_iter (skip item delim) hcons j s vs s₁ hiter hterm
    unfold parse_delimited_by
    simp only [htok, make_parse_result]
    constructor
    · intro hfail
      simp only [hfail]
    · intro v hv
      constructor
      · intro htermfail
        simp only [hv, htermfail]
      · intro htermok
        obtain ⟨w, hw⟩ := Option.isSome_iff_exists.mp htermok
        simp only [hv, hw]
  · decide

theorem C1_delimited_by_contract_witness :
    parse_delimited_by (parse_literal 'a') (parse_literal ',') (parse_literal ';')
        "a,a;".toList
      = make_parse_result [['a'], ['a']] ((parse_literal 'a' "a;".toList).input) :=
  ((C1_delimited_by_contract.1 (List Char) (List Char) (List Char)
      (parse_literal 'a') (parse_literal ',') (parse_literal ';')
      1 "a,a;".toList [['a']] "a;".toList
      (Consumes_skip (parse_literal 'a') (parse_literal ',')
        (Consumes_parse_literal 'a') (Consumes_parse_literal ','))
      (by decide) (Or.inr (by decide))).2 ['a'] (by decide)).2 (by decide)

end MParse
